import Mathlib

/-!
# Verification of the iblapps alignment / provenance engine

Shallow embedding of the provenance-resolution code in
`needles2/probe_model.py` and of the alignment-history / coordinate-fit
code in `atlaselectrophysiology/ephys_atlas_gui.py`, together with
theorems settling the specification's claims about them.

Numeric values (numpy float arrays in the source) are embedded as `ℚ`;
machine integers (Python unbounded ints) as `ℤ` or `ℕ`.
-/

set_option linter.unusedVariables false

namespace IblApps

/-! ## Provenance model (`needles2/probe_model.py`)

`PROV_2_VAL` ranks the five provenance tiers; `VAL_2_PROV` inverts it.
Python dicts preserve insertion order, so iteration over `VAL_2_PROV`
visits ranks in the order they appear in `PROV_2_VAL`: 90, 70, 50, 30, 10. -/

/-- The five provenance tiers of `PROV_2_VAL`. -/
inductive Prov where
  | Resolved
  | EphysAligned
  | Histology
  | Micro
  | Planned
deriving DecidableEq, Repr, Inhabited

/-- `PROV_2_VAL`: rank of each provenance tier. -/
def PROV_2_VAL : Prov → ℕ
  | .Resolved => 90
  | .EphysAligned => 70
  | .Histology => 50
  | .Micro => 30
  | .Planned => 10

/-- Iteration order of `VAL_2_PROV.items()`: the insertion order of
`PROV_2_VAL`, i.e. ranks 90, 70, 50, 30, 10 (descending). -/
def provList : List Prov :=
  [.Resolved, .EphysAligned, .Histology, .Micro, .Planned]

/-- `VAL_2_PROV[v + 20]`: the next-higher provenance tier, when the lookup
succeeds (`Resolved` has rank 90 and no entry at 110). -/
def nextProv : Prov → Option Prov
  | .Planned => some .Micro
  | .Micro => some .Histology
  | .Histology => some .EphysAligned
  | .EphysAligned => some .Resolved
  | .Resolved => none

/-- One trajectory record: its `probe_insertion` identifier plus an opaque
payload standing for the rest of the parallel-array data (`traj`, `x`, `y`). -/
structure Rec where
  ins : ℕ
  payload : ℕ
deriving DecidableEq, Repr, Inhabited

/-- The `ins` column of a tier's records (`self.traj[prov]['ins']`). -/
def insOf (rs : List Rec) : List ℕ := rs.map Rec.ins

/-- Fancy indexing `rs[idxs]`: the records at the given indices, in index
order. -/
def selectIdx (rs : List Rec) (idxs : List ℕ) : List Rec :=
  idxs.map fun i => rs.getD i default

/-- `ProbeModel.find_traj_is_best`: indices (ascending, as produced by
`np.where`) of the tier's records whose insertion id is not among the
next-higher tier's insertion ids; for `Planned` the surviving indices are
additionally filtered against the `Histology` tier
(`VAL_2_PROV[val + 40]`). Returns `[]` for `Resolved`, which has no
next tier and is never passed to this function by the source. -/
def findTrajIsBest (d : Prov → List Rec) (p : Prov) : List ℕ :=
  match nextProv p with
  | none => []
  | some q =>
    let base := (List.range (d p).length).filter
      fun i => decide (((d p).getD i default).ins ∉ insOf (d q))
    if p = .Planned then
      base.filter fun i => decide (((d p).getD i default).ins ∉ insOf (d .Histology))
    else
      base

/-- The records a tier contributes to "Best":
`self.traj[prov]['traj'][self.traj[prov]['is_best']]`. -/
def bestRecs (d : Prov → List Rec) (p : Prov) : List Rec :=
  selectIdx (d p) (findTrajIsBest d p)

/-- The memoised `is_best` index arrays in the state the source sets up:
`initialise` pre-sets `Resolved`'s `is_best` to `np.arange(len(traj))`,
and every other tier's is computed (lazily, on first use) by
`find_traj_is_best`. -/
def isBestStd (d : Prov → List Rec) (p : Prov) : List ℕ :=
  if p = .Resolved then List.range (d p).length else findTrajIsBest d p

/-- `ProbeModel.compute_best_for_provenance`: collect the tiers whose rank
is `>= PROV_2_VAL[provenance]` in `VAL_2_PROV` iteration order, then
concatenate each tier's best records in that order (`iP == 0` starts the
accumulator, later tiers are appended with `np.r_`). -/
def computeBestForProvenance (d : Prov → List Rec) (minp : Prov) : List Rec :=
  let provToInclude := provList.filter fun p => PROV_2_VAL minp ≤ PROV_2_VAL p
  provToInclude.foldl (fun acc p => acc ++ selectIdx (d p) (isBestStd d p)) []

/-- Modelled from the spec: the merge order the specification asserts for
`merge_best` — "iterating tiers from lowest to highest precedence and
concatenating; result ordering follows tier precedence ascending". Kept
separate from `computeBestForProvenance` (the source translation) so the
two can be compared. -/
def specMergeBestAscending (d : Prov → List Rec) (minp : Prov) : List Rec :=
  let provToInclude := provList.reverse.filter fun p => PROV_2_VAL minp ≤ PROV_2_VAL p
  provToInclude.foldl (fun acc p => acc ++ selectIdx (d p) (isBestStd d p)) []

/-- Models `np.argmax`: index of the first occurrence of the maximum of a
list (0 on the empty list, which the source never passes). -/
def listArgmax : List ℕ → ℕ
  | [] => 0
  | a :: rest => if rest.all fun b => b ≤ a then 0 else listArgmax rest + 1

/-- A trajectory record as returned by the REST query in
`insertion_by_id`: its provenance tag plus an opaque payload. -/
structure TrajP where
  provenance : Prov
  payload : ℕ
deriving DecidableEq, Repr, Inhabited

/-- `ProbeModel.insertion_by_id` (trajectory part):
`traj[np.argmax([PROV_2_VAL[tr['provenance']] for tr in traj])]`. -/
def insertionById (trajs : List TrajP) : TrajP :=
  trajs.getD (listArgmax (trajs.map fun t => PROV_2_VAL t.provenance)) default

/-- A tier's contribution to the merged "Best" collection:
`self.traj[prov]['traj'][self.traj[prov]['is_best']]` with the memoised
`is_best` arrays of the initialised model. -/
def bestTierRecs (d : Prov → List Rec) (p : Prov) : List Rec :=
  selectIdx (d p) (isBestStd d p)

/-! ## ChannelLocator (`ProbeModel.get_channels`) -/

/-- A 3D point (x, y, z). -/
abbrev V3 := ℚ × ℚ × ℚ

/-- A trajectory as consumed by `get_channels`: provenance tag, the
insertion geometry's tip and entry (computed by the external
`atlas.Insertion.from_dict`), and the user-picked track points
(`json['xyz_picks']`, in micrometers). -/
structure TrajC where
  provenance : Prov
  tip : V3
  entry : V3
  xyz_picks : List V3
deriving DecidableEq, Repr

/-- Insert a point into a list sorted by the z (depth) coordinate. -/
def insertZ (v : V3) : List V3 → List V3
  | [] => [v]
  | w :: t => if v.2.2 ≤ w.2.2 then v :: w :: t else w :: insertZ v t

/-- Models `xyz[np.argsort(xyz[:, 2]), :]`: sort the 3D points by their
z (depth) coordinate. -/
def sortByZ (l : List V3) : List V3 := l.foldr insertZ []

/-- Micrometers to meters on a 3D point (`xyz_picks / 1e6`). -/
def scaleV3 (v : V3) : V3 := (v.1 / 1000000, v.2.1 / 1000000, v.2.2 / 1000000)

/-- `ProbeModel.get_channels`, parameterised over the external
collaborators: `interp` is ibllib's `histology.interpolate_along_track`,
`ephysChannels` stands for the `EphysAlignment` branch taken for the
ephys-aligned / resolved provenances, `tipSize` is ibllib's
`TIP_SIZE_UM`. Dispatch on `traj['provenance']` as in the source. -/
def get_channels (interp : List V3 → List ℚ → List V3)
    (ephysChannels : TrajC → List ℚ → List V3) (tipSize : ℚ)
    (traj : TrajC) (depths : List ℚ) : List V3 :=
  if traj.provenance = .Planned ∨ traj.provenance = .Micro then
    interp [traj.tip, traj.entry] (depths.map fun d => (d + tipSize) / 1000000)
  else if traj.provenance = .Histology then
    interp (sortByZ (traj.xyz_picks.map scaleV3))
      (depths.map fun d => (d + tipSize) / 1000000)
  else
    ephysChannels traj depths

/-! ## Alignment history and coordinate fits
(`atlaselectrophysiology/ephys_atlas_gui.py`) -/

/-- Insertion step for `sortQ`. -/
def insertQ (x : ℚ) : List ℚ → List ℚ
  | [] => [x]
  | y :: t => if x ≤ y then x :: y :: t else y :: insertQ x t

/-- Models `np.sort` on a 1-D array: sorted ascending. -/
def sortQ (l : List ℚ) : List ℚ := l.foldr insertQ []

/-- Models `np.diff`: consecutive differences. -/
def diffQ : List ℚ → List ℚ
  | [] => []
  | [_] => []
  | a :: b :: t => (b - a) :: diffQ (b :: t)

/-- In-place update of element 0 (`arr[0] = v`). -/
def setHead' (l : List ℚ) (v : ℚ) : List ℚ := l.set 0 v

/-- In-place update of the final element (`arr[-1] = v`). -/
def setLast' (l : List ℚ) (v : ℚ) : List ℚ := l.set (l.length - 1) v

/-- Modelled from the spec: `LoadData.feature2track` of
`atlaselectrophysiology/load_data.py`, which is not under `src/` —
"maps an array of feature-space depths into track-space using the
piecewise-linear interpolation defined by the slot's (feature, track)
point pairs". One query point, `np.interp`-style over the anchor pairs. -/
def interpPoint : List (ℚ × ℚ) → ℚ → ℚ
  | [], _ => 0
  | [(_, y)], _ => y
  | (x1, y1) :: (x2, y2) :: t, q =>
    if q ≤ x1 then y1
    else if q ≤ x2 then y1 + (q - x1) * (y2 - y1) / (x2 - x1)
    else interpPoint ((x2, y2) :: t) q

/-- Modelled from the spec: `LoadData.feature2track` applied to an array
of query depths, with the slot's feature/track anchor arrays. -/
def feature2track (f t : List ℚ) (depths : List ℚ) : List ℚ :=
  depths.map (interpPoint (f.zip t))

/-- Modelled from the spec: `LoadData.feature2track_lin` of
`atlaselectrophysiology/load_data.py`, which is not under `src/` —
"fits a single linear regression (least squares) through all anchor
pairs in the slot and evaluates it at `depths`", sentinel 0 when fewer
than 2 anchors exist. Evaluation at one query point. -/
def linFitEval (f t : List ℚ) (q : ℚ) : ℚ :=
  let ps := f.zip t
  let n : ℚ := ps.length
  let sx := (ps.map Prod.fst).sum
  let sy := (ps.map Prod.snd).sum
  let sxy := (ps.map fun p => p.1 * p.2).sum
  let sxx := (ps.map fun p => p.1 * p.1).sum
  if ps.length < 2 then 0
  else
    let slope := (n * sxy - sx * sy) / (n * sxx - sx * sx)
    (sy - slope * sx) / n + slope * q

/-- Modelled from the spec: `LoadData.feature2track_lin` applied to an
array of query depths. -/
def feature2track_lin (f t : List ℚ) (depths : List ℚ) : List ℚ :=
  depths.map (linFitEval f t)

/-- `self.extend_feature = 5000 / 1e6`: the fixed outward margin, 5000 µm
expressed in meters. -/
def extendFeature : ℚ := 5000 / 1000000

/-- The state of `MainWindow` relevant to the alignment-history and
coordinate-fit claims: the cursor counters of the cyclic buffer
(`max_idx`, `current_idx`, `total_idx`, `last_idx`, `diff_idx`, the slot
indices `idx`, `idx_prev`), the linear-fit toggle, the reference-line
collections (one position per line; `lines_features` rows hold three
markers kept at one shared position), the offset spin-box value
(`tip_pos`, µm), the per-slot track/feature arrays and the initial
unscaled array `track_init` (meters). -/
structure GuiState where
  max_idx : ℤ
  current_idx : ℤ
  total_idx : ℤ
  last_idx : ℤ
  diff_idx : ℤ
  idx : ℤ
  idx_prev : ℤ
  lin_fit : Bool
  lines_features : List ℚ
  lines_tracks : List ℚ
  points : List ℚ
  tip_pos : ℚ
  track : ℤ → List ℚ
  features : ℤ → List ℚ
  track_init : List ℚ

/-- The cyclic-buffer index bookkeeping that opens
`fit_button_pressed`, `offset_button_pressed` and
`reset_button_pressed` (the three methods repeat it verbatim):
on a rewind (`current_idx < last_idx`) copy `current_idx` into
`total_idx` and compute `diff_idx` from the wrapped index difference,
otherwise set `diff_idx = max_idx - 1`. -/
def branchDiff (s : GuiState) : GuiState :=
  if s.current_idx < s.last_idx then
    { s with
      total_idx := s.current_idx,
      diff_idx :=
        if 0 ≤ s.last_idx % s.max_idx - s.current_idx % s.max_idx then
          s.max_idx - (s.last_idx % s.max_idx - s.current_idx % s.max_idx)
        else
          |s.last_idx % s.max_idx - s.current_idx % s.max_idx| }
  else
    { s with diff_idx := s.max_idx - 1 }

/-- `MainWindow.scale_hist_data`: recompute slot `idx`'s track/feature
arrays from slot `idx_prev` and the reference-line positions.
(The trailing `scale_histology_regions` / `get_scale_factor` calls touch
only display data outside this state.) -/
def scale_hist_data (s : GuiState) : GuiState :=
  let line_track := s.lines_tracks.map fun v => v / 1000000
  let line_feature := s.lines_features.map fun v => v / 1000000
  let prevT := s.track s.idx_prev
  let prevF := s.features s.idx_prev
  let depths_track := sortQ ([prevT.headD 0, prevT.getLastD 0] ++ line_track)
  let newT := feature2track prevF prevT depths_track
  let newF := sortQ ([prevF.headD 0, prevF.getLastD 0] ++ line_feature)
  if 5 ≤ newF.length ∧ s.lin_fit = true then
    let f1 := setHead' newF (newF.headD 0 - extendFeature)
    let f2 := setLast' f1 (f1.getLastD 0 + extendFeature)
    let ext := feature2track_lin f2 newT [f2.headD 0, f2.getLastD 0]
    let t1 := setHead' newT (ext.headD 0)
    let t2 := setLast' t1 (ext.getLastD 0)
    { s with track := Function.update s.track s.idx t2,
             features := Function.update s.features s.idx f2 }
  else
    let d := diffQ (List.zipWith (fun a b => a - b) newF newT)
    let t1 := setHead' newT (newT.headD 0 - d.headD 0)
    let t2 := setLast' t1 (t1.getLastD 0 + d.getLastD 0)
    { s with track := Function.update s.track s.idx t2,
             features := Function.update s.features s.idx newF }

/-- `MainWindow.offset_hist_data`: slot `idx` gets the previous slot's
track shifted by `tip_pos.value() / 1e6` and the previous slot's
features unchanged. -/
def offset_hist_data (s : GuiState) : GuiState :=
  { s with
    track := Function.update s.track s.idx
      ((s.track s.idx_prev).map fun x => x + s.tip_pos / 1000000),
    features := Function.update s.features s.idx (s.features s.idx_prev) }

/-- `MainWindow.fit_button_pressed` (state-relevant part): cyclic-buffer
bookkeeping, increment `total_idx` and `current_idx`, move `idx_prev`
and `idx`, then `scale_hist_data`. -/
def fit_button_pressed (s : GuiState) : GuiState :=
  let s1 := branchDiff s
  let s2 := { s1 with total_idx := s1.total_idx + 1, current_idx := s1.current_idx + 1 }
  let s3 := { s2 with idx_prev := s2.idx, idx := s2.current_idx % s2.max_idx }
  scale_hist_data s3

/-- `MainWindow.offset_button_pressed` (state-relevant part): same
bookkeeping as `fit_button_pressed`, then `offset_hist_data`. -/
def offset_button_pressed (s : GuiState) : GuiState :=
  let s1 := branchDiff s
  let s2 := { s1 with total_idx := s1.total_idx + 1, current_idx := s1.current_idx + 1 }
  let s3 := { s2 with idx_prev := s2.idx, idx := s2.current_idx % s2.max_idx }
  offset_hist_data s3

/-- `MainWindow.reset_button_pressed` (state-relevant part): clear the
reference-line collections, run the same cyclic-buffer bookkeeping, and
write `np.copy(track_init)` into both the track and the feature array of
the newly addressed slot. -/
def reset_button_pressed (s : GuiState) : GuiState :=
  let s0 := { s with lines_features := [], lines_tracks := [], points := [] }
  let s1 := branchDiff s0
  let s2 := { s1 with total_idx := s1.total_idx + 1, current_idx := s1.current_idx + 1 }
  let s3 := { s2 with idx := s2.current_idx % s2.max_idx }
  { s3 with track := Function.update s3.track s3.idx s3.track_init,
            features := Function.update s3.features s3.idx s3.track_init }

/-- The opening of `MainWindow.prev_button_pressed`: raise `last_idx`
to `total_idx` if it fell behind. -/
def undoLastUpdate (s : GuiState) : GuiState :=
  if s.last_idx < s.total_idx then { s with last_idx := s.total_idx } else s

/-- `MainWindow.prev_button_pressed` (state-relevant part): raise
`last_idx` to `total_idx` if it fell behind, then step back only if
`current_idx > max(0, total_idx - diff_idx)`. -/
def prev_button_pressed (s : GuiState) : GuiState :=
  if max 0 ((undoLastUpdate s).total_idx - (undoLastUpdate s).diff_idx)
      < (undoLastUpdate s).current_idx then
    { undoLastUpdate s with
      current_idx := (undoLastUpdate s).current_idx - 1,
      idx := ((undoLastUpdate s).current_idx - 1) % (undoLastUpdate s).max_idx }
  else
    undoLastUpdate s

/-- The sorted feature array `scale_hist_data` builds for the new slot
before any extreme-anchor adjustment:
`np.sort(np.r_[features[idx_prev][[0, -1]], line_feature])`, stated
against the pre-press state (whose displayed slot becomes `idx_prev`). -/
def fitSortedFeatures (s : GuiState) : List ℚ :=
  sortQ ([(s.features s.idx).headD 0, (s.features s.idx).getLastD 0]
    ++ s.lines_features.map fun v => v / 1000000)

/-- The interpolated track array `scale_hist_data` builds for the new
slot before any extreme-anchor adjustment:
`feature2track(np.sort(np.r_[track[idx_prev][[0, -1]], line_track]), idx_prev)`. -/
def fitInterpTrack (s : GuiState) : List ℚ :=
  feature2track (s.features s.idx) (s.track s.idx)
    (sortQ ([(s.track s.idx).headD 0, (s.track s.idx).getLastD 0]
      ++ s.lines_tracks.map fun v => v / 1000000))

/-- The sorted feature array `scale_hist_data` builds for slot `idx`
from slot `idx_prev`, before any extreme-anchor adjustment. -/
def newSortedFeatures (s : GuiState) : List ℚ :=
  sortQ ([(s.features s.idx_prev).headD 0, (s.features s.idx_prev).getLastD 0]
    ++ s.lines_features.map fun v => v / 1000000)

/-- The interpolated track array `scale_hist_data` builds for slot `idx`
from slot `idx_prev`, before any extreme-anchor adjustment. -/
def newInterpTrack (s : GuiState) : List ℚ :=
  feature2track (s.features s.idx_prev) (s.track s.idx_prev)
    (sortQ ([(s.track s.idx_prev).headD 0, (s.track s.idx_prev).getLastD 0]
      ++ s.lines_tracks.map fun v => v / 1000000))

/-! ## Concrete data used by counterexamples and witnesses -/

/-- Tier data with one best Histology record and one best
Ephys-aligned record: exposes the merge order of
`compute_best_for_provenance`. -/
def dMergeEx : Prov → List Rec
  | .Histology => [⟨1, 0⟩]
  | .EphysAligned => [⟨2, 1⟩]
  | _ => []

/-- Tier data with one Planned record whose insertion id reappears in
the Histology tier but not in the Micro-manipulator tier. -/
def dPlannedEx : Prov → List Rec
  | .Planned => [⟨5, 0⟩]
  | .Histology => [⟨5, 1⟩]
  | _ => []

/-- A two-record trajectory list for `insertion_by_id`. -/
def sampleTrajs : List TrajP := [⟨.Planned, 0⟩, ⟨.Histology, 1⟩]

/-- A Planned-provenance trajectory for `get_channels`. -/
def sampleTrajPlanned : TrajC :=
  { provenance := .Planned, tip := (0, 0, 0), entry := (1, 1, 1),
    xyz_picks := [] }

/-- A Histology-provenance trajectory for `get_channels`. -/
def sampleTrajHist : TrajC :=
  { provenance := .Histology, tip := (0, 0, 0), entry := (1, 1, 1),
    xyz_picks := [(3, 3, 3), (2, 2, 2)] }

/-- A small `MainWindow` state: fresh session, two-anchor arrays, three
reference lines, linear-fit mode on. -/
def sampleGuiLin : GuiState :=
  { max_idx := 10, current_idx := 0, total_idx := 0, last_idx := 0,
    diff_idx := 0, idx := 0, idx_prev := 0, lin_fit := true,
    lines_features := [1000, 2000, 3000], lines_tracks := [1100, 2100, 3100],
    points := [0, 0, 0], tip_pos := 50,
    track := fun i => if i = 0 then [0, 4/1000] else [],
    features := fun i => if i = 0 then [0, 4/1000] else [],
    track_init := [0, 4/1000] }

/-- A `MainWindow` state at the undo floor (`current_idx` is not above
`max(0, total_idx - diff_idx)`) whose `last_idx` lags `total_idx`. -/
def sampleGuiFloor : GuiState :=
  { max_idx := 10, current_idx := 0, total_idx := 3, last_idx := 1,
    diff_idx := 9, idx := 0, idx_prev := 0, lin_fit := true,
    lines_features := [], lines_tracks := [],
    points := [], tip_pos := 0,
    track := fun _ => [0, 1], features := fun _ => [0, 1],
    track_init := [0, 1] }

/-! ## Helper lemmas -/

/-- Prepending a record shifts index selection by one. -/
theorem selectIdx_cons_map_succ (a : Rec) (t : List Rec) (idxs : List ℕ) :
    selectIdx (a :: t) (idxs.map Nat.succ) = selectIdx t idxs := by
  simp only [selectIdx, List.map_map]
  rfl

/-- Selecting `np.where`-style indices back out of the array they were
computed from is a plain filter of the array. -/
theorem selectIdx_range_filter (rs : List Rec) (q : Rec → Bool) :
    selectIdx rs ((List.range rs.length).filter fun i => q (rs.getD i default))
      = rs.filter q := by
  induction rs with
  | nil => rfl
  | cons a t ih =>
    have hmap : List.filter (fun i => q ((a :: t).getD i default))
        ((List.range t.length).map Nat.succ)
        = ((List.range t.length).filter fun i => q (t.getD i default)).map Nat.succ := by
      rw [List.filter_map]
      rfl
    rw [List.length_cons, List.range_succ_eq_map, List.filter_cons, List.filter_cons]
    simp only [List.getD_cons_zero]
    by_cases hq : q a
    · rw [if_pos hq, if_pos hq, hmap]
      exact congrArg (a :: ·)
        (show selectIdx (a :: t)
            (((List.range t.length).filter fun i => q (t.getD i default)).map Nat.succ)
          = List.filter q t by rw [selectIdx_cons_map_succ, ih])
    · rw [if_neg hq, if_neg hq, hmap, selectIdx_cons_map_succ, ih]

/-- Folding list concatenation over tiers is the flattened map. -/
theorem foldl_append_eq_join (f : Prov → List Rec) :
    ∀ (ps : List Prov) (acc : List Rec),
      ps.foldl (fun a p => a ++ f p) acc = acc ++ (ps.map f).flatten := by
  intro ps
  induction ps with
  | nil => intro acc; simp
  | cons p t ih => intro acc; simp [ih, List.append_assoc]

/-! ## Claim C1 -/

/-- C1 counterexample: with one best Histology record and one best
Ephys-aligned record, `compute_best_for_provenance('Histology track')`
does not return the tiers concatenated in ascending precedence order
(the source iterates `VAL_2_PROV` in `PROV_2_VAL`'s insertion order,
which is descending). -/
theorem c1_counterexample_merge_order :
    computeBestForProvenance dMergeEx .Histology
      ≠ specMergeBestAscending dMergeEx .Histology := by decide

/-- C1 (amended): for every minimum tier, `compute_best_for_provenance`
returns the concatenation of the `best_for_tier` results of every tier
whose precedence is at or above the minimum tier's, iterating tiers from
HIGHEST to LOWEST precedence, so the result is ordered by tier
precedence DESCENDING (records within a tier keep their source order,
being selected at ascending indices). -/
theorem c1_merge_best_descending (d : Prov → List Rec) (minp : Prov) :
    computeBestForProvenance d minp
      = ((provList.filter fun p => PROV_2_VAL minp ≤ PROV_2_VAL p).map
          (bestTierRecs d)).flatten
  ∧ List.Pairwise (fun p q => PROV_2_VAL q < PROV_2_VAL p)
      (provList.filter fun p => PROV_2_VAL minp ≤ PROV_2_VAL p) := by
  constructor
  · show (provList.filter fun p => PROV_2_VAL minp ≤ PROV_2_VAL p).foldl
        (fun acc p => acc ++ selectIdx (d p) (isBestStd d p)) [] = _
    rw [foldl_append_eq_join]
    rfl
  · cases minp <;> decide

/-! ## Claim C3 -/

/-- C3 counterexample: a Planned record whose insertion id is absent
from the next-higher tier (Micro-manipulator) but present in the
Histology tier is still excluded by `find_traj_is_best`, so the claimed
"exactly the next-higher tier's ids" characterisation fails for the
Planned tier. -/
theorem c3_counterexample_planned :
    bestRecs dPlannedEx .Planned
      ≠ (dPlannedEx .Planned).filter
          (fun r => decide (r.ins ∉ insOf (dPlannedEx .Micro))) := by decide

/-- C3 (amended): for every tier with a next-higher tier OTHER THAN
Planned (i.e. Micro-manipulator, Histology track, Ephys aligned
histology track), `find_traj_is_best` selects exactly those of the
tier's records whose insertion identifier does not appear among the
next-higher tier's insertion identifiers; in particular the Histology
tier excludes exactly the ids present in the Ephys-aligned tier.
(Planned additionally filters against the Histology tier, see C4.) -/
theorem c3_best_for_tier_set_difference (d : Prov → List Rec) :
    bestRecs d .Micro
      = (d .Micro).filter (fun r => decide (r.ins ∉ insOf (d .Histology)))
  ∧ bestRecs d .Histology
      = (d .Histology).filter (fun r => decide (r.ins ∉ insOf (d .EphysAligned)))
  ∧ bestRecs d .EphysAligned
      = (d .EphysAligned).filter (fun r => decide (r.ins ∉ insOf (d .Resolved))) := by
  refine ⟨?_, ?_, ?_⟩
  · exact selectIdx_range_filter (d .Micro)
      fun r => decide (r.ins ∉ insOf (d .Histology))
  · exact selectIdx_range_filter (d .Histology)
      fun r => decide (r.ins ∉ insOf (d .EphysAligned))
  · exact selectIdx_range_filter (d .EphysAligned)
      fun r => decide (r.ins ∉ insOf (d .Resolved))

/-! ## Claim C4 -/

/-- C4: for the Planned tier, `find_traj_is_best` excludes a record from
the best set if and only if its insertion identifier is present in the
Micro-manipulator tier or in the Histology-track tier (the two-level
lookahead). -/
theorem c4_planned_two_level (d : Prov → List Rec) :
    bestRecs d .Planned
      = (d .Planned).filter
          (fun r => decide
            (¬(r.ins ∈ insOf (d .Micro) ∨ r.ins ∈ insOf (d .Histology)))) := by
  have h1 : bestRecs d .Planned
      = selectIdx (d .Planned)
          (((List.range (d .Planned).length).filter
              fun i => decide (((d .Planned).getD i default).ins ∉ insOf (d .Micro))).filter
            fun i => decide (((d .Planned).getD i default).ins ∉ insOf (d .Histology))) := rfl
  have h2 := selectIdx_range_filter (d .Planned)
      fun r => decide (r.ins ∉ insOf (d .Histology)) && decide (r.ins ∉ insOf (d .Micro))
  rw [h1, List.filter_filter]
  refine h2.trans (List.filter_congr ?_)
  intro r hr
  by_cases hm : r.ins ∈ insOf (d .Micro) <;> by_cases hh : r.ins ∈ insOf (d .Histology) <;>
    simp [hm, hh]

/-! ## Claim C10 -/

theorem listArgmax_lt_length (l : List ℕ) (h : l ≠ []) : listArgmax l < l.length := by
  induction l with
  | nil => exact absurd rfl h
  | cons a rest ih =>
    unfold listArgmax
    split
    · simp
    · rename_i hall
      have hr : rest ≠ [] := by
        intro he
        subst he
        simp at hall
      simpa using Nat.succ_lt_succ (ih hr)

theorem listArgmax_is_max (l : List ℕ) : ∀ x ∈ l, x ≤ l.getD (listArgmax l) 0 := by
  induction l with
  | nil => simp
  | cons a rest ih =>
    intro x hx
    unfold listArgmax
    split
    · rename_i hall
      rcases List.mem_cons.1 hx with rfl | hx'
      · exact le_refl x
      · exact by simpa using (List.all_eq_true.1 hall) x hx'
    · rename_i hall
      rw [List.getD_cons_succ]
      rcases List.mem_cons.1 hx with rfl | hx'
      · have hex : ∃ b ∈ rest, x < b := by
          rw [List.all_eq_true] at hall
          push_neg at hall
          obtain ⟨b, hb, hlt⟩ := hall
          exact ⟨b, hb, by simpa using hlt⟩
        obtain ⟨b, hb, hab⟩ := hex
        exact le_trans (le_of_lt hab) (ih b hb)
      · exact ih x hx'

theorem listArgmax_first (l : List ℕ) :
    ∀ j < listArgmax l, l.getD j 0 < l.getD (listArgmax l) 0 := by
  induction l with
  | nil => intro j hj; simp [listArgmax] at hj
  | cons a rest ih =>
    intro j hj
    unfold listArgmax at hj ⊢
    split at hj
    · exact absurd hj (Nat.not_lt_zero j)
    · rename_i hall
      split
      · rename_i hall2
        exact absurd hall2 hall
      · cases j with
        | zero =>
          rw [List.getD_cons_zero, List.getD_cons_succ]
          have hex : ∃ b ∈ rest, a < b := by
            rw [List.all_eq_true] at hall
            push_neg at hall
            obtain ⟨b, hb, hlt⟩ := hall
            exact ⟨b, hb, by simpa using hlt⟩
          obtain ⟨b, hb, hab⟩ := hex
          exact lt_of_lt_of_le hab (listArgmax_is_max rest b hb)
        | succ n =>
          rw [List.getD_cons_succ, List.getD_cons_succ]
          exact ih n (Nat.lt_of_succ_lt_succ hj)

/-- `getD` through a `map`, for in-range indices. -/
theorem getD_map_rank (trajs : List TrajP) (i : ℕ) (hi : i < trajs.length) :
    (trajs.map fun t => PROV_2_VAL t.provenance).getD i 0
      = PROV_2_VAL ((trajs.getD i default).provenance) := by
  induction trajs generalizing i with
  | nil => exact absurd hi (Nat.not_lt_zero i)
  | cons a t ih =>
    cases i with
    | zero => rfl
    | succ n =>
      simp only [List.map_cons, List.getD_cons_succ]
      exact ih n (Nat.lt_of_succ_lt_succ hi)

/-- C10: for every non-empty trajectory list, `insertion_by_id` returns
the record at `np.argmax` of the provenance ranks: its rank is maximal
among all records, and every earlier record has a strictly smaller rank
(so rank ties resolve to the first record in source order). -/
theorem c10_insertion_by_id_rank (trajs : List TrajP) (h : trajs ≠ []) :
    listArgmax (trajs.map fun t => PROV_2_VAL t.provenance) < trajs.length
  ∧ insertionById trajs
      = trajs.getD (listArgmax (trajs.map fun t => PROV_2_VAL t.provenance)) default
  ∧ (∀ r ∈ trajs,
      PROV_2_VAL r.provenance ≤ PROV_2_VAL (insertionById trajs).provenance)
  ∧ (∀ j < listArgmax (trajs.map fun t => PROV_2_VAL t.provenance),
      PROV_2_VAL ((trajs.getD j default).provenance)
        < PROV_2_VAL (insertionById trajs).provenance) := by
  have hmne : trajs.map (fun t => PROV_2_VAL t.provenance) ≠ [] := by
    intro he
    exact h (List.map_eq_nil_iff.1 he)
  have hlt : listArgmax (trajs.map fun t => PROV_2_VAL t.provenance) < trajs.length := by
    have := listArgmax_lt_length _ hmne
    simpa using this
  have hb : PROV_2_VAL (insertionById trajs).provenance
      = (trajs.map fun t => PROV_2_VAL t.provenance).getD
          (listArgmax (trajs.map fun t => PROV_2_VAL t.provenance)) 0 := by
    rw [getD_map_rank trajs _ hlt]
    rfl
  refine ⟨hlt, rfl, ?_, ?_⟩
  · intro r hr
    rw [hb]
    exact listArgmax_is_max _ _ (List.mem_map_of_mem _ hr)
  · intro j hj
    have hjlt : j < trajs.length :=
      lt_trans hj hlt
    rw [hb, ← getD_map_rank trajs j hjlt]
    exact listArgmax_first _ j hj

/-- C10 witness: on a concrete two-record list the returned trajectory
is the one at the rank argmax, which is in bounds. -/
theorem c10_witness :
    listArgmax (sampleTrajs.map fun t => PROV_2_VAL t.provenance) < sampleTrajs.length
  ∧ insertionById sampleTrajs
      = sampleTrajs.getD
          (listArgmax (sampleTrajs.map fun t => PROV_2_VAL t.provenance)) default :=
  ⟨(c10_insertion_by_id_rank sampleTrajs (by decide)).1,
   (c10_insertion_by_id_rank sampleTrajs (by decide)).2.1⟩

/-! ## Claim C9 -/

/-- C9: `get_channels` dispatches on the provenance tag: for Planned or
Micro-manipulator it interpolates `depths + tip_offset` (scaled to
meters) along the 2-point line [tip, entry]; for Histology track it
interpolates the same depths along the user-picked points sorted by the
depth (z) axis. -/
theorem c9_get_channels_dispatch (interp : List V3 → List ℚ → List V3)
    (ephysChannels : TrajC → List ℚ → List V3) (tipSize : ℚ)
    (traj : TrajC) (depths : List ℚ) :
    (traj.provenance = .Planned ∨ traj.provenance = .Micro →
      get_channels interp ephysChannels tipSize traj depths
        = interp [traj.tip, traj.entry] (depths.map fun d => (d + tipSize) / 1000000))
  ∧ (traj.provenance = .Histology →
      get_channels interp ephysChannels tipSize traj depths
        = interp (sortByZ (traj.xyz_picks.map scaleV3))
            (depths.map fun d => (d + tipSize) / 1000000)) := by
  constructor
  · intro hp
    unfold get_channels
    rw [if_pos hp]
  · intro hp
    have hne : ¬(traj.provenance = .Planned ∨ traj.provenance = .Micro) := by
      rw [hp]
      rintro (hcon | hcon) <;> exact Prov.noConfusion hcon
    unfold get_channels
    rw [if_neg hne, if_pos hp]

/-- C9 witness: both dispatch hypotheses realised on concrete
trajectories, with the external interpolator instantiated to return its
track argument. -/
theorem c9_witness :
    (sampleTrajPlanned.provenance = .Planned ∨ sampleTrajPlanned.provenance = .Micro)
  ∧ get_channels (fun l _ => l) (fun _ _ => []) 0 sampleTrajPlanned [0]
      = [sampleTrajPlanned.tip, sampleTrajPlanned.entry]
  ∧ sampleTrajHist.provenance = .Histology
  ∧ get_channels (fun l _ => l) (fun _ _ => []) 0 sampleTrajHist [0]
      = sortByZ (sampleTrajHist.xyz_picks.map scaleV3) :=
  ⟨Or.inl rfl,
   (c9_get_channels_dispatch (fun l _ => l) (fun _ _ => []) 0 sampleTrajPlanned [0]).1
     (Or.inl rfl),
   rfl,
   (c9_get_channels_dispatch (fun l _ => l) (fun _ _ => []) 0 sampleTrajHist [0]).2 rfl⟩

/-! ## Claim C2 -/

/-- `scale_hist_data` leaves every cursor field unchanged. -/
theorem scale_hist_data_cursor (s : GuiState) :
    (scale_hist_data s).diff_idx = s.diff_idx
  ∧ (scale_hist_data s).total_idx = s.total_idx
  ∧ (scale_hist_data s).current_idx = s.current_idx
  ∧ (scale_hist_data s).idx = s.idx
  ∧ (scale_hist_data s).max_idx = s.max_idx := by
  simp only [scale_hist_data]
  split_ifs <;> exact ⟨rfl, rfl, rfl, rfl, rfl⟩

/-- `offset_hist_data` leaves every cursor field unchanged. -/
theorem offset_hist_data_cursor (s : GuiState) :
    (offset_hist_data s).diff_idx = s.diff_idx
  ∧ (offset_hist_data s).total_idx = s.total_idx
  ∧ (offset_hist_data s).current_idx = s.current_idx
  ∧ (offset_hist_data s).idx = s.idx
  ∧ (offset_hist_data s).max_idx = s.max_idx :=
  ⟨rfl, rfl, rfl, rfl, rfl⟩

/-- Field equations of the shared cyclic-buffer bookkeeping block. -/
theorem branchDiff_fields (s : GuiState) :
    (branchDiff s).diff_idx
        = (if s.current_idx < s.last_idx then
            (if 0 ≤ s.last_idx % s.max_idx - s.current_idx % s.max_idx then
              s.max_idx - (s.last_idx % s.max_idx - s.current_idx % s.max_idx)
            else |s.last_idx % s.max_idx - s.current_idx % s.max_idx|)
          else s.max_idx - 1)
  ∧ (branchDiff s).total_idx
      = (if s.current_idx < s.last_idx then s.current_idx else s.total_idx)
  ∧ (branchDiff s).current_idx = s.current_idx
  ∧ (branchDiff s).max_idx = s.max_idx := by
  unfold branchDiff
  split_ifs <;> exact ⟨rfl, rfl, rfl, rfl⟩

/-- C2: every edit (fit, offset, reset) computes `diff_idx` as
`max_idx - ((last_idx mod max_idx) - (current_idx mod max_idx))` when
that inner difference is non-negative and as its absolute value
otherwise, when a rewind occurred (`current_idx < last_idx`, in which
case `total_idx` is first truncated to `current_idx`); with no rewind
`diff_idx = max_idx - 1`; then `total_idx` and `current_idx` are
incremented by 1 and the new slot index is `current_idx mod max_idx`. -/
theorem c2_branch_distance (s : GuiState) :
    ((fit_button_pressed s).diff_idx
        = (if s.current_idx < s.last_idx then
            (if 0 ≤ s.last_idx % s.max_idx - s.current_idx % s.max_idx then
              s.max_idx - (s.last_idx % s.max_idx - s.current_idx % s.max_idx)
            else |s.last_idx % s.max_idx - s.current_idx % s.max_idx|)
          else s.max_idx - 1)
      ∧ (fit_button_pressed s).total_idx
          = (if s.current_idx < s.last_idx then s.current_idx else s.total_idx) + 1
      ∧ (fit_button_pressed s).current_idx = s.current_idx + 1
      ∧ (fit_button_pressed s).idx = (s.current_idx + 1) % s.max_idx)
  ∧ ((offset_button_pressed s).diff_idx
        = (if s.current_idx < s.last_idx then
            (if 0 ≤ s.last_idx % s.max_idx - s.current_idx % s.max_idx then
              s.max_idx - (s.last_idx % s.max_idx - s.current_idx % s.max_idx)
            else |s.last_idx % s.max_idx - s.current_idx % s.max_idx|)
          else s.max_idx - 1)
      ∧ (offset_button_pressed s).total_idx
          = (if s.current_idx < s.last_idx then s.current_idx else s.total_idx) + 1
      ∧ (offset_button_pressed s).current_idx = s.current_idx + 1
      ∧ (offset_button_pressed s).idx = (s.current_idx + 1) % s.max_idx)
  ∧ ((reset_button_pressed s).diff_idx
        = (if s.current_idx < s.last_idx then
            (if 0 ≤ s.last_idx % s.max_idx - s.current_idx % s.max_idx then
              s.max_idx - (s.last_idx % s.max_idx - s.current_idx % s.max_idx)
            else |s.last_idx % s.max_idx - s.current_idx % s.max_idx|)
          else s.max_idx - 1)
      ∧ (reset_button_pressed s).total_idx
          = (if s.current_idx < s.last_idx then s.current_idx else s.total_idx) + 1
      ∧ (reset_button_pressed s).current_idx = s.current_idx + 1
      ∧ (reset_button_pressed s).idx = (s.current_idx + 1) % s.max_idx) := by
  have hc1 : (branchDiff s).current_idx = s.current_idx := (branchDiff_fields s).2.2.1
  have hm1 : (branchDiff s).max_idx = s.max_idx := (branchDiff_fields s).2.2.2
  have hidx : ((branchDiff s).current_idx + 1) % (branchDiff s).max_idx
      = (s.current_idx + 1) % s.max_idx := by rw [hc1, hm1]
  refine ⟨⟨?_, ?_, ?_, ?_⟩, ⟨?_, ?_, ?_, ?_⟩, ⟨?_, ?_, ?_, ?_⟩⟩
  · exact ((scale_hist_data_cursor _).1).trans (branchDiff_fields s).1
  · exact ((scale_hist_data_cursor _).2.1).trans (congrArg (· + 1) (branchDiff_fields s).2.1)
  · exact ((scale_hist_data_cursor _).2.2.1).trans (congrArg (· + 1) hc1)
  · exact ((scale_hist_data_cursor _).2.2.2.1).trans hidx
  · exact ((offset_hist_data_cursor _).1).trans (branchDiff_fields s).1
  · exact ((offset_hist_data_cursor _).2.1).trans (congrArg (· + 1) (branchDiff_fields s).2.1)
  · exact ((offset_hist_data_cursor _).2.2.1).trans (congrArg (· + 1) hc1)
  · exact ((offset_hist_data_cursor _).2.2.2.1).trans hidx
  · exact (branchDiff_fields
      { s with lines_features := [], lines_tracks := [], points := [] }).1
  · exact congrArg (· + 1) (branchDiff_fields
      { s with lines_features := [], lines_tracks := [], points := [] }).2.1
  · exact congrArg (· + 1) (branchDiff_fields
      { s with lines_features := [], lines_tracks := [], points := [] }).2.2.1
  · show ((branchDiff { s with lines_features := [], lines_tracks := [], points := [] }).current_idx + 1)
        % (branchDiff { s with lines_features := [], lines_tracks := [], points := [] }).max_idx
      = (s.current_idx + 1) % s.max_idx
    rw [(branchDiff_fields
          { s with lines_features := [], lines_tracks := [], points := [] }).2.2.1,
        (branchDiff_fields
          { s with lines_features := [], lines_tracks := [], points := [] }).2.2.2]

/-! ## Claim C5 -/

/-- C5: `prev_button_pressed` (undo) first raises `last_idx` to
`max(last_idx, total_idx)`, then decrements `current_idx` by 1 exactly
when `current_idx > max(0, total_idx - diff_idx)`; `total_idx` and
`diff_idx` are untouched, and when the decrement condition fails the
whole operation changes nothing beyond the stated `last_idx` update (a
silent no-op, no error is raised). -/
theorem c5_undo_floor (s : GuiState) :
    (prev_button_pressed s).last_idx = max s.last_idx s.total_idx
  ∧ (prev_button_pressed s).total_idx = s.total_idx
  ∧ (prev_button_pressed s).diff_idx = s.diff_idx
  ∧ (prev_button_pressed s).current_idx
      = (if max 0 (s.total_idx - s.diff_idx) < s.current_idx
         then s.current_idx - 1 else s.current_idx)
  ∧ (¬ max 0 (s.total_idx - s.diff_idx) < s.current_idx →
      prev_button_pressed s = { s with last_idx := max s.last_idx s.total_idx }) := by
  have hmax : undoLastUpdate s = { s with last_idx := max s.last_idx s.total_idx } := by
    unfold undoLastUpdate
    split_ifs with h
    · rw [max_eq_right (le_of_lt h)]
    · rw [max_eq_left (not_lt.1 h)]
  by_cases h : max 0 (s.total_idx - s.diff_idx) < s.current_idx <;>
    simp [prev_button_pressed, hmax, h]

/-- C5 witness: a state at the undo floor with `last_idx` behind
`total_idx`: the operation only performs the `last_idx` update. -/
theorem c5_witness :
    ¬ max 0 (sampleGuiFloor.total_idx - sampleGuiFloor.diff_idx)
        < sampleGuiFloor.current_idx
  ∧ prev_button_pressed sampleGuiFloor
      = { sampleGuiFloor with
          last_idx := max sampleGuiFloor.last_idx sampleGuiFloor.total_idx } :=
  ⟨by decide, (c5_undo_floor sampleGuiFloor).2.2.2.2 (by decide)⟩

/-! ## Claim C6 -/

/-- C6: `reset_button_pressed` writes the original unscaled `track_init`
array into both the track and the feature array of the newly addressed
slot and clears all reference-point collections, so after a reset the
displayed track/feature arrays equal `track_init`. -/
theorem c6_reset_restores_init (s : GuiState) :
    (reset_button_pressed s).track (reset_button_pressed s).idx = s.track_init
  ∧ (reset_button_pressed s).features (reset_button_pressed s).idx = s.track_init
  ∧ (reset_button_pressed s).lines_features = []
  ∧ (reset_button_pressed s).lines_tracks = []
  ∧ (reset_button_pressed s).points = [] := by
  simp only [reset_button_pressed, branchDiff]
  split_ifs <;>
    exact ⟨Function.update_same _ _ _, Function.update_same _ _ _, rfl, rfl, rfl⟩

/-! ## List lemmas for the coordinate-fit claims -/

theorem length_insertQ (x : ℚ) (l : List ℚ) : (insertQ x l).length = l.length + 1 := by
  induction l with
  | nil => rfl
  | cons y t ih =>
    unfold insertQ
    split_ifs <;> simp [ih]

theorem length_sortQ (l : List ℚ) : (sortQ l).length = l.length := by
  induction l with
  | nil => rfl
  | cons a t ih =>
    show (insertQ a (sortQ t)).length = t.length + 1
    rw [length_insertQ, ih]

theorem headD_set_zero {α : Type} (l : List α) (v d : α) (h : l ≠ []) :
    (l.set 0 v).headD d = v := by
  cases l with
  | nil => exact absurd rfl h
  | cons a t => rfl

theorem headD_set_of_ne {α : Type} (l : List α) (k : ℕ) (v d : α) (h : k ≠ 0) :
    (l.set k v).headD d = l.headD d := by
  cases l with
  | nil => rfl
  | cons a t =>
    cases k with
    | zero => exact absurd rfl h
    | succ n => rfl

theorem getLastD_indep {α : Type} (l : List α) (d1 d2 : α) (h : l ≠ []) :
    l.getLastD d1 = l.getLastD d2 := by
  cases l with
  | nil => exact absurd rfl h
  | cons a t => rw [List.getLastD_cons, List.getLastD_cons]

theorem getLastD_set_last {α : Type} (l : List α) (v : α) (h : l ≠ []) :
    ∀ d, (l.set (l.length - 1) v).getLastD d = v := by
  induction l with
  | nil => exact absurd rfl h
  | cons a t ih =>
    intro d
    cases t with
    | nil => rfl
    | cons b t2 =>
      have hstep : ((a :: b :: t2).set ((a :: b :: t2).length - 1) v)
          = a :: ((b :: t2).set ((b :: t2).length - 1) v) := rfl
      rw [hstep, List.getLastD_cons]
      exact ih (by simp) a

theorem getLastD_set_zero {α : Type} (l : List α) (v d : α) (h : 2 ≤ l.length) :
    (l.set 0 v).getLastD d = l.getLastD d := by
  cases l with
  | nil => simp at h
  | cons a t =>
    cases t with
    | nil => simp at h
    | cons b t2 =>
      show (v :: b :: t2).getLastD d = (a :: b :: t2).getLastD d
      simp [List.getLastD_cons]

theorem length_feature2track (f t ds : List ℚ) :
    (feature2track f t ds).length = ds.length :=
  List.length_map _ _

theorem length_newSortedFeatures (s : GuiState) :
    (newSortedFeatures s).length = s.lines_features.length + 2 := by
  unfold newSortedFeatures
  rw [length_sortQ, List.length_append, List.length_map]
  simp [Nat.add_comm]

theorem length_newInterpTrack (s : GuiState) :
    (newInterpTrack s).length = s.lines_tracks.length + 2 := by
  unfold newInterpTrack
  rw [length_feature2track, length_sortQ, List.length_append, List.length_map]
  simp [Nat.add_comm]

/-- First element after updating both extremes of a two-or-longer list. -/
theorem headD_setLast_setHead (l : List ℚ) (v w : ℚ) (h : 2 ≤ l.length) :
    (setLast' (setHead' l v) w).headD 0 = v := by
  have hne : l ≠ [] := by
    intro he
    rw [he] at h
    simp at h
  unfold setLast' setHead'
  rw [headD_set_of_ne _ _ _ _ (by simp; omega)]
  exact headD_set_zero l v 0 hne

/-- Last element after updating both extremes of a two-or-longer list. -/
theorem getLastD_setLast_setHead (l : List ℚ) (v w : ℚ) (h : 2 ≤ l.length) :
    (setLast' (setHead' l v) w).getLastD 0 = w := by
  have hne : l.set 0 v ≠ [] := by
    intro he
    have := congrArg List.length he
    simp at this
    rw [this] at h
    simp at h
  unfold setLast' setHead'
  exact getLastD_set_last _ _ hne 0

/-- Updating the first element of a two-or-longer list keeps its last. -/
theorem getLastD_setHead (l : List ℚ) (v : ℚ) (h : 2 ≤ l.length) :
    (setHead' l v).getLastD 0 = l.getLastD 0 := by
  unfold setHead'
  exact getLastD_set_zero l v 0 h

/-- What `scale_hist_data` does to the extreme anchors of the newly
written slot: with 5 or more anchors and linear-fit mode on, the extreme
feature anchors move outward by `extendFeature` and the extreme track
anchors are recomputed by the least-squares fit evaluated at those
extended feature extremes; otherwise the extreme track anchors are
nudged by the first/last element of `np.diff(features - track)` and the
feature array is written unchanged. -/
theorem scale_hist_data_spec (s : GuiState) :
    if 5 ≤ (newSortedFeatures s).length ∧ s.lin_fit = true then
      ((scale_hist_data s).features s.idx).headD 0
          = (newSortedFeatures s).headD 0 - extendFeature
      ∧ ((scale_hist_data s).features s.idx).getLastD 0
          = (newSortedFeatures s).getLastD 0 + extendFeature
      ∧ ((scale_hist_data s).track s.idx).headD 0
          = linFitEval ((scale_hist_data s).features s.idx) (newInterpTrack s)
              ((newSortedFeatures s).headD 0 - extendFeature)
      ∧ ((scale_hist_data s).track s.idx).getLastD 0
          = linFitEval ((scale_hist_data s).features s.idx) (newInterpTrack s)
              ((newSortedFeatures s).getLastD 0 + extendFeature)
    else
      (scale_hist_data s).features s.idx = newSortedFeatures s
      ∧ ((scale_hist_data s).track s.idx).headD 0
          = (newInterpTrack s).headD 0
            - (diffQ (List.zipWith (fun a b => a - b)
                (newSortedFeatures s) (newInterpTrack s))).headD 0
      ∧ ((scale_hist_data s).track s.idx).getLastD 0
          = (newInterpTrack s).getLastD 0
            + (diffQ (List.zipWith (fun a b => a - b)
                (newSortedFeatures s) (newInterpTrack s))).getLastD 0 := by
  have hF2 : 2 ≤ (newSortedFeatures s).length := by
    rw [length_newSortedFeatures]
    omega
  have hT2 : 2 ≤ (newInterpTrack s).length := by
    rw [length_newInterpTrack]
    omega
  simp only [newSortedFeatures, newInterpTrack] at hF2 hT2 ⊢
  simp only [scale_hist_data]
  split_ifs with h
  · simp only [Function.update_same]
    refine ⟨headD_setLast_setHead _ _ _ hF2, ?_, ?_, ?_⟩
    · rw [getLastD_setLast_setHead _ _ _ hF2, getLastD_setHead _ _ hF2]
    · rw [headD_setLast_setHead _ _ _ hT2]
      simp only [feature2track_lin, List.map_cons, List.map_nil, List.headD_cons]
      rw [headD_setLast_setHead _ _ _ hF2]
    · rw [getLastD_setLast_setHead _ _ _ hT2]
      simp only [feature2track_lin, List.map_cons, List.map_nil, List.getLastD_cons,
        List.getLastD_nil]
      rw [getLastD_setLast_setHead _ _ _ hF2, getLastD_setHead _ _ hF2]
  · simp only [Function.update_same]
    refine ⟨trivial, headD_setLast_setHead _ _ _ hT2, ?_⟩
    rw [getLastD_setLast_setHead _ _ _ hT2, getLastD_setHead _ _ hT2]

/-! ## Claims C7 and C8 -/

/-- `fit_button_pressed` is `scale_hist_data` on the state with the
advanced cursor, `idx_prev` at the previously displayed slot and `idx`
at the new slot. -/
theorem fit_button_as_scale (s : GuiState) :
    fit_button_pressed s
      = scale_hist_data
          { s with
            current_idx := s.current_idx + 1,
            total_idx := (branchDiff s).total_idx + 1,
            diff_idx := (branchDiff s).diff_idx,
            idx_prev := s.idx,
            idx := (s.current_idx + 1) % s.max_idx } := by
  unfold fit_button_pressed
  unfold branchDiff
  split_ifs <;> rfl

/-- `offset_button_pressed` is `offset_hist_data` on the state with the
advanced cursor. -/
theorem offset_button_as_offset (s : GuiState) :
    offset_button_pressed s
      = offset_hist_data
          { s with
            current_idx := s.current_idx + 1,
            total_idx := (branchDiff s).total_idx + 1,
            diff_idx := (branchDiff s).diff_idx,
            idx_prev := s.idx,
            idx := (s.current_idx + 1) % s.max_idx } := by
  unfold offset_button_pressed
  unfold branchDiff
  split_ifs <;> rfl

/-- C7: for every fit edit, when the new (sorted) feature array has 5 or
more anchors and linear-fit mode is enabled, the two extreme feature
anchors of the new slot are moved outward by exactly `extendFeature`
(5000 µm in meters; first decreased, last increased) and the two extreme
track anchors are the least-squares linear fit evaluated at those
extended feature extremes; otherwise the feature array is written as
sorted and the first/last track anchors are nudged by the first/last
element of `np.diff(features - track)`. -/
theorem c7_fit_edge_policy (s : GuiState) :
    if 5 ≤ (fitSortedFeatures s).length ∧ s.lin_fit = true then
      ((fit_button_pressed s).features ((s.current_idx + 1) % s.max_idx)).headD 0
          = (fitSortedFeatures s).headD 0 - extendFeature
      ∧ ((fit_button_pressed s).features ((s.current_idx + 1) % s.max_idx)).getLastD 0
          = (fitSortedFeatures s).getLastD 0 + extendFeature
      ∧ ((fit_button_pressed s).track ((s.current_idx + 1) % s.max_idx)).headD 0
          = linFitEval ((fit_button_pressed s).features ((s.current_idx + 1) % s.max_idx))
              (fitInterpTrack s) ((fitSortedFeatures s).headD 0 - extendFeature)
      ∧ ((fit_button_pressed s).track ((s.current_idx + 1) % s.max_idx)).getLastD 0
          = linFitEval ((fit_button_pressed s).features ((s.current_idx + 1) % s.max_idx))
              (fitInterpTrack s) ((fitSortedFeatures s).getLastD 0 + extendFeature)
    else
      (fit_button_pressed s).features ((s.current_idx + 1) % s.max_idx)
          = fitSortedFeatures s
      ∧ ((fit_button_pressed s).track ((s.current_idx + 1) % s.max_idx)).headD 0
          = (fitInterpTrack s).headD 0
            - (diffQ (List.zipWith (fun a b => a - b) (fitSortedFeatures s)
                (fitInterpTrack s))).headD 0
      ∧ ((fit_button_pressed s).track ((s.current_idx + 1) % s.max_idx)).getLastD 0
          = (fitInterpTrack s).getLastD 0
            + (diffQ (List.zipWith (fun a b => a - b) (fitSortedFeatures s)
                (fitInterpTrack s))).getLastD 0 := by
  rw [fit_button_as_scale]
  exact scale_hist_data_spec
    { s with
      current_idx := s.current_idx + 1,
      total_idx := (branchDiff s).total_idx + 1,
      diff_idx := (branchDiff s).diff_idx,
      idx_prev := s.idx,
      idx := (s.current_idx + 1) % s.max_idx }

/-- `scale_hist_data` writes feature/track arrays of equal length into
the new slot whenever the reference-line collections are paired. -/
theorem scale_hist_data_len (s : GuiState)
    (h : s.lines_features.length = s.lines_tracks.length) :
    ((scale_hist_data s).features s.idx).length
      = ((scale_hist_data s).track s.idx).length := by
  have hF := length_newSortedFeatures s
  have hT := length_newInterpTrack s
  simp only [newSortedFeatures, newInterpTrack] at hF hT
  simp only [scale_hist_data]
  split_ifs with hc <;>
  · simp only [Function.update_same]
    unfold setLast' setHead'
    simp only [List.length_set]
    rw [hF, hT, h]

/-- `reset_button_pressed` writes `track_init` into both arrays of the
newly addressed slot. -/
theorem reset_slot_arrays (s : GuiState) :
    (reset_button_pressed s).track ((s.current_idx + 1) % s.max_idx) = s.track_init
  ∧ (reset_button_pressed s).features ((s.current_idx + 1) % s.max_idx)
      = s.track_init := by
  by_cases h1 : s.current_idx < s.last_idx <;>
  by_cases h2 : 0 ≤ s.last_idx % s.max_idx - s.current_idx % s.max_idx <;>
    simp [reset_button_pressed, branchDiff, h1, h2, Function.update_same]

/-- C8: if the reference-line collections are paired and the displayed
slot's feature/track arrays have equal length, then after each of fit,
offset and reset the newly written slot's feature and track arrays have
equal length. -/
theorem c8_length_invariant (s : GuiState)
    (hlines : s.lines_features.length = s.lines_tracks.length)
    (hslot : (s.features s.idx).length = (s.track s.idx).length) :
    ((fit_button_pressed s).features ((s.current_idx + 1) % s.max_idx)).length
      = ((fit_button_pressed s).track ((s.current_idx + 1) % s.max_idx)).length
  ∧ ((offset_button_pressed s).features ((s.current_idx + 1) % s.max_idx)).length
      = ((offset_button_pressed s).track ((s.current_idx + 1) % s.max_idx)).length
  ∧ ((reset_button_pressed s).features ((s.current_idx + 1) % s.max_idx)).length
      = ((reset_button_pressed s).track ((s.current_idx + 1) % s.max_idx)).length := by
  refine ⟨?_, ?_, ?_⟩
  · rw [fit_button_as_scale]
    exact scale_hist_data_len _ hlines
  · rw [offset_button_as_offset]
    simp only [offset_hist_data, Function.update_same, List.length_map]
    exact hslot
  · obtain ⟨h1, h2⟩ := reset_slot_arrays s
    rw [h1, h2]

/-- C8 witness: the invariant instantiated on a concrete state with
three paired reference lines and equal two-anchor arrays. -/
theorem c8_witness :
    ((fit_button_pressed sampleGuiLin).features
        ((sampleGuiLin.current_idx + 1) % sampleGuiLin.max_idx)).length
      = ((fit_button_pressed sampleGuiLin).track
          ((sampleGuiLin.current_idx + 1) % sampleGuiLin.max_idx)).length
  ∧ ((offset_button_pressed sampleGuiLin).features
        ((sampleGuiLin.current_idx + 1) % sampleGuiLin.max_idx)).length
      = ((offset_button_pressed sampleGuiLin).track
          ((sampleGuiLin.current_idx + 1) % sampleGuiLin.max_idx)).length
  ∧ ((reset_button_pressed sampleGuiLin).features
        ((sampleGuiLin.current_idx + 1) % sampleGuiLin.max_idx)).length
      = ((reset_button_pressed sampleGuiLin).track
          ((sampleGuiLin.current_idx + 1) % sampleGuiLin.max_idx)).length :=
  c8_length_invariant sampleGuiLin (by decide) (by decide)

end IblApps
